import Mathlib

/-!
Shallow embedding of the mork-mm page-table mutator (`src/page_table.rs`).

The hardware abstraction layer (`mork_hal`) is an external collaborator of
this repository; its contract is given in the specification (§6.1) with the
concrete parameters of §8.2 (`HAL_PAGE_LEVEL = 3`, `size_at(0) = 1 GiB`,
`KERNEL_OFFSET = 0xffff_ffc0_0000_0000`, RISC-V Sv39 layout, matching the
39-bit mask and the shift-by-12 in the source).  HAL definitions below are
therefore modelled from the spec; everything in the `MutPageTableWrapper`
namespace is translated directly from `src/page_table.rs`.

Machine integers (`usize`) are modelled as `Nat` with explicit wrap-around
(`% 2 ^ 64`) where the source performs arithmetic that can overflow or
underflow in release builds (`usizeSub`).

Memory is modelled as a total map from kernel-virtual node addresses to
page-table nodes (`Mem`); the Rust walker descends raw pointers obtained
from entries via `get_page_table().get_ptr()`, which resolves a stored
physical address back into the kernel linear view (`+ KERNEL_OFFSET`,
spec §4.2.2 addressing notes).  A Rust panic (a failed `expect`/`unwrap`
on a HAL index lookup) is modelled as `none`.
-/

/-- Modelled from the spec: depth of the MMU tree (`mork_hal::config::HAL_PAGE_LEVEL`),
fixed to the concrete value 3 used throughout the spec's scenarios (§8.2). -/
def HAL_PAGE_LEVEL : Nat := 3

/-- Modelled from the spec: `mork_hal::KERNEL_OFFSET`, the constant added to a
physical address to obtain its kernel-linear virtual address (§8.2). -/
def KERNEL_OFFSET : Nat := 0xffffffc000000000

/-- One beyond the largest `usize` value. -/
def USIZE_MOD : Nat := 2 ^ 64

/-- Wrapping `usize` subtraction (release-build semantics of Rust `a - b`).
For `a, b < 2 ^ 64` this is `a - b` when `b ≤ a` and wraps around otherwise. -/
def usizeSub (a b : Nat) : Nat := (a + (USIZE_MOD - b % USIZE_MOD)) % USIZE_MOD

/-- Wrapping `usize` addition (release-build semantics of Rust `a + b`). -/
def usizeAdd (a b : Nat) : Nat := (a + b) % USIZE_MOD

/-- Alignment check (`mork_common::utils::alignas::is_aligned`): divisibility. -/
def is_aligned (v n : Nat) : Bool := v % n == 0

/-- Modelled from the spec: one MMU slot (`mork_hal::mm::PageTableEntryImpl`,
§6.1): valid bit, leaf predicate, stored physical address, permission bits
R/W/X and the user bit. -/
structure PageTableEntryImpl where
  valid : Bool
  leaf : Bool
  addr : Nat
  x : Bool
  w : Bool
  r : Bool
  user : Bool
deriving DecidableEq

/-- Modelled from the spec: `PageTableEntryImpl::default()`, the invalid
(all-zero) entry sentinel (§6.1). -/
def PageTableEntryImpl.default : PageTableEntryImpl :=
  ⟨false, false, 0, false, false, false, false⟩

/-- Modelled from the spec: `pte.get_page_table().get_ptr()` — the stored
physical address resolved back into the kernel linear view (§4.2.2:
`phys = virt − KERNEL_OFFSET`), with `usize` wrap-around. -/
def PageTableEntryImpl.get_ptr (e : PageTableEntryImpl) : Nat :=
  (e.addr + KERNEL_OFFSET) % USIZE_MOD

/-- Modelled from the spec: one directory node (`mork_hal::mm::PageTableImpl`),
a page-sized array of entries, represented as its slot-lookup function. -/
abbrev PageTableImpl := Nat → PageTableEntryImpl

/-- Slot update inside one node. -/
def PageTableImpl.set (t : PageTableImpl) (i : Nat) (e : PageTableEntryImpl) :
    PageTableImpl :=
  fun j => if j = i then e else t j

/-- Modelled from the spec: `PageTableImpl::new()`, a zero-initialised
directory (§6.1). -/
def PageTableImpl.new : PageTableImpl := fun _ => PageTableEntryImpl.default

/-- Modelled from the spec: `PageTableImpl::get_index(vaddr, level)` — extract
the 9-bit directory index at `level` (Sv39: bits 38..30, 29..21, 20..12),
`None` out of the tree's depth (§6.1). -/
def PageTableImpl.get_index (vaddr level : Nat) : Option Nat :=
  if level < HAL_PAGE_LEVEL then
    some ((vaddr >>> (12 + 9 * (HAL_PAGE_LEVEL - 1 - level))) % 512)
  else none

/-- Modelled from the spec: `PageTableImpl::get_size(level)` — bytes spanned
by one slot at `level`; `size_at(0) = 1 GiB` (§8.2). -/
def PageTableImpl.get_size (level : Nat) : Option Nat :=
  if level < HAL_PAGE_LEVEL then
    some (2 ^ (12 + 9 * (HAL_PAGE_LEVEL - 1 - level)))
  else none

/-- Modelled from the spec: `PageTableImpl::map_page_table(vaddr, paddr, level)`
writes an intermediate entry (§6.1); `none` models the panic on an
out-of-depth index. -/
def PageTableImpl.map_page_table (t : PageTableImpl) (vaddr paddr level : Nat) :
    Option PageTableImpl :=
  (PageTableImpl.get_index vaddr level).map fun i =>
    t.set i ⟨true, false, paddr, false, false, false, false⟩

/-- Modelled from the spec: `PageTableImpl::map_frame_for_user` writes a user
leaf with the given permission bits (§6.1). -/
def PageTableImpl.map_frame_for_user (t : PageTableImpl)
    (vaddr paddr level : Nat) (x w r : Bool) : Option PageTableImpl :=
  (PageTableImpl.get_index vaddr level).map fun i =>
    t.set i ⟨true, true, paddr, x, w, r, true⟩

/-- Modelled from the spec: `PageTableImpl::map_frame_for_kernel` writes a
kernel leaf (full permissions, supervisor) (§6.1). -/
def PageTableImpl.map_frame_for_kernel (t : PageTableImpl)
    (vaddr paddr level : Nat) : Option PageTableImpl :=
  (PageTableImpl.get_index vaddr level).map fun i =>
    t.set i ⟨true, true, paddr, true, true, true, false⟩

/-- Modelled from the spec: `PageTableImpl::unmap_frame(vaddr, level)` clears
a leaf slot back to the invalid sentinel (§6.1). -/
def PageTableImpl.unmap_frame (t : PageTableImpl) (vaddr level : Nat) :
    Option PageTableImpl :=
  (PageTableImpl.get_index vaddr level).map fun i =>
    t.set i PageTableEntryImpl.default

/-- Kernel-virtual memory holding the page-table nodes: a total map from a
node's address to its contents.  The Rust code reaches nodes through raw
pointers; a `Mem` read at address `p` models `*(p as *mut PageTable)`. -/
abbrev Mem := Nat → PageTableImpl

/-- Replace the node stored at address `p`. -/
def Mem.write (m : Mem) (p : Nat) (t : PageTableImpl) : Mem :=
  fun q => if q = p then t else m q

/-- Update a single slot of the node stored at address `p`. -/
def Mem.writeSlot (m : Mem) (p i : Nat) (e : PageTableEntryImpl) : Mem :=
  m.write p ((m p).set i e)

/-- Outcome of a walk (`SearchResult` in the source); the node is carried as
its address rather than a mutable borrow. -/
inductive SearchResult where
  | Found (level : Nat) (node : Nat)
  | Missing (level : Nat) (node : Nat)
deriving DecidableEq

/-- Level carried by a search result. -/
def SearchResult.level : SearchResult → Nat
  | .Found l _ => l
  | .Missing l _ => l

/-- Node address carried by a search result. -/
def SearchResult.node : SearchResult → Nat
  | .Found _ n => n
  | .Missing _ n => n

namespace MutPageTableWrapper

/-- Loop body of `search_for_modify`.  The Rust loop first checks
`current_level >= max_level`; here the fuel argument is kept equal to
`max_level - current_level`, so fuel `0` is exactly the guard firing
(before any entry is read) and each descent consumes one unit.  `none`
models the `expect` panic on an out-of-depth index. -/
def searchGo (mem : Mem) (vaddr : Nat) :
    Nat → Nat → Nat → Option SearchResult
  | 0, level, pt => some (.Missing level pt)
  | fuel + 1, level, pt =>
    match PageTableImpl.get_index vaddr level with
    | none => none
    | some index =>
      let pte := mem pt index
      if ¬ pte.valid then some (.Missing level pt)
      else if pte.leaf then some (.Found level pt)
      else searchGo mem vaddr fuel (level + 1) pte.get_ptr

/-- `MutPageTableWrapper::search_for_modify(vaddr, max_level)` on a wrapper
with table address `root` and depth field `startLevel`. -/
def search_for_modify (mem : Mem) (root startLevel vaddr maxLevel : Nat) :
    Option SearchResult :=
  searchGo mem vaddr (maxLevel - startLevel) startLevel root

end MutPageTableWrapper

/-- Syscall-layer response labels (`mork_common::syscall::message_info::ResponseLabel`,
the three codes used by this crate, spec §6.3). -/
inductive ResponseLabel where
  | InvalidParam
  | MappedAlready
  | PageTableMiss
deriving DecidableEq

/-- Abstraction of the `String` errors produced with `format!` by `map_kernel`
and `map_root_task_frame`: one constructor per distinct message, carrying the
formatted arguments. -/
inductive KernelErr where
  | alignErr (vaddr paddr : Nat)
  | memInfoErr
deriving DecidableEq

deriving instance DecidableEq for Except

namespace MutPageTableWrapper

/-- `MutPageTableWrapper::map_page_table(vaddr, paddr)` from the source
(lines 63-83); the wrapper is `(root, startLevel)`, the returned `Mem` is
the post-state.  `none` models a panic. -/
def map_page_table (mem : Mem) (root startLevel vaddr paddr : Nat) :
    Option (Mem × Except ResponseLabel Nat) :=
  if ¬ (is_aligned vaddr 4096 ∧ is_aligned paddr 4096) then
    some (mem, .error .InvalidParam)
  else
    match search_for_modify mem root startLevel vaddr HAL_PAGE_LEVEL with
    | none => none
    | some (.Missing level node) =>
      if level = HAL_PAGE_LEVEL - 1 then some (mem, .error .MappedAlready)
      else
        match PageTableImpl.map_page_table (mem node) vaddr
            (usizeSub paddr KERNEL_OFFSET) level with
        | none => none
        | some t => some (mem.write node t, .ok (level + 1))
    | some (.Found _ _) => some (mem, .error .MappedAlready)

/-- `MutPageTableWrapper::map_frame(vaddr, paddr, is_x, is_w, is_r)` from the
source (lines 85-113). -/
def map_frame (mem : Mem) (root startLevel vaddr paddr : Nat) (x w r : Bool) :
    Option (Mem × Except ResponseLabel Unit) :=
  if ¬ (is_aligned vaddr 4096 ∧ is_aligned paddr 4096) then
    some (mem, .error .InvalidParam)
  else
    match search_for_modify mem root startLevel vaddr HAL_PAGE_LEVEL with
    | none => none
    | some (.Missing level node) =>
      if level = HAL_PAGE_LEVEL - 1 then
        match PageTableImpl.map_frame_for_user (mem node) vaddr
            (usizeSub paddr KERNEL_OFFSET) level x w r with
        | none => none
        | some t => some (mem.write node t, .ok ())
      else some (mem, .error .PageTableMiss)
    | some (.Found _ _) => some (mem, .error .MappedAlready)

/-- `MutPageTableWrapper::unmap_frame(vaddr)` from the source (lines 115-132). -/
def unmap_frame (mem : Mem) (root startLevel vaddr : Nat) :
    Option (Mem × Except ResponseLabel Unit) :=
  if ¬ is_aligned vaddr 4096 then some (mem, .error .InvalidParam)
  else
    match search_for_modify mem root startLevel vaddr HAL_PAGE_LEVEL with
    | none => none
    | some (.Found level node) =>
      match PageTableImpl.unmap_frame (mem node) vaddr level with
      | none => none
      | some t => some (mem.write node t, .ok ())
    | some (.Missing _ _) => some (mem, .error .InvalidParam)

/-- Body of `unmap_page_table` after the alignment check, parameterised by the
walk bound it passes to `search_for_modify` (the source computes that bound
as `level - 1` with unchecked `usize` subtraction, see `unmap_page_table`). -/
def unmap_page_table_core (mem : Mem) (root startLevel vaddr paddr maxLevel : Nat) :
    Option (Mem × Except ResponseLabel Unit) :=
  match search_for_modify mem root startLevel vaddr maxLevel with
  | none => none
  | some (.Found _ _) => some (mem, .error .MappedAlready)
  | some (.Missing levelInner node) =>
    match PageTableImpl.get_index vaddr levelInner with
    | none => none
    | some index =>
      let pte := mem node index
      if pte.get_ptr ≠ paddr then some (mem, .error .InvalidParam)
      else some (mem.writeSlot node index PageTableEntryImpl.default, .ok ())

/-- `MutPageTableWrapper::unmap_page_table(vaddr, paddr, level)` from the
source (lines 134-158); the walk bound is the wrapping `level - 1`. -/
def unmap_page_table (mem : Mem) (root startLevel vaddr paddr level : Nat) :
    Option (Mem × Except ResponseLabel Unit) :=
  if ¬ is_aligned vaddr 4096 then some (mem, .error .InvalidParam)
  else unmap_page_table_core mem root startLevel vaddr paddr (usizeSub level 1)

/-- The walk never returns a level below the one it started from. -/
theorem searchGo_level_ge (mem : Mem) (vaddr : Nat) :
    ∀ fuel level pt res, searchGo mem vaddr fuel level pt = some res →
      level ≤ res.level := by
  intro fuel
  induction fuel with
  | zero =>
    intro level pt res h
    simp only [searchGo] at h
    cases h
    simp [SearchResult.level]
  | succ n ih =>
    intro level pt res h
    simp only [searchGo] at h
    cases hidx : PageTableImpl.get_index vaddr level with
    | none => rw [hidx] at h; cases h
    | some index =>
      rw [hidx] at h
      simp only at h
      by_cases hv : (mem pt index).valid
      · simp only [hv] at h
        by_cases hl : (mem pt index).leaf
        · simp only [hl, if_pos, if_neg, Bool.not_true] at h
          cases h
          simp [SearchResult.level]
        · simp only [hl, Bool.not_true, if_neg, if_false] at h
          have := ih (level + 1) _ res h
          omega
      · simp only [hv, Bool.not_false, if_pos] at h
        cases h
        simp [SearchResult.level]

/-- `search_for_modify` never returns a level below the wrapper's depth. -/
theorem search_for_modify_level_ge (mem : Mem)
    (root startLevel vaddr maxLevel : Nat) (res : SearchResult)
    (h : search_for_modify mem root startLevel vaddr maxLevel = some res) :
    startLevel ≤ res.level :=
  searchGo_level_ge mem vaddr _ startLevel root res h

/-- A successful HAL intermediate write implies the level is in depth range. -/
theorem PageTableImpl.map_page_table_some_level {t t2 : PageTableImpl}
    {vaddr paddr level : Nat}
    (h : PageTableImpl.map_page_table t vaddr paddr level = some t2) :
    level < HAL_PAGE_LEVEL := by
  unfold PageTableImpl.map_page_table PageTableImpl.get_index at h
  by_cases hl : level < HAL_PAGE_LEVEL
  · exact hl
  · rw [if_neg hl] at h; cases h

/-- `MutPageTableWrapper::map_root_task_frame(vaddr, paddr, is_x, is_w, is_r)`
from the source (lines 159-200).  The heap allocation
`Box::leak(Box::new(PageTable::new()))` is modelled from the spec by an
oracle list `fresh` of the addresses the allocator hands out, consumed in
order; an exhausted oracle yields the null sentinel 0 (spec §4.1: allocation
failure returns null and is unchecked here, §9).  The recursion terminates
because the walk's level never drops below the wrapper's depth. -/
def map_root_task_frame (mem : Mem) (fresh : List Nat)
    (root startLevel vaddr paddr : Nat) (x w r : Bool) :
    Option (Mem × List Nat × Except KernelErr Unit) :=
  if ¬ (is_aligned vaddr 4096 ∧ is_aligned paddr 4096) then
    some (mem, fresh, .error (.alignErr vaddr paddr))
  else
    match hs : search_for_modify mem root startLevel vaddr HAL_PAGE_LEVEL with
    | none => none
    | some (.Found _ _) => some (mem, fresh, .ok ())
    | some (.Missing level node) =>
      if level = HAL_PAGE_LEVEL - 1 then
        match PageTableImpl.map_frame_for_user (mem node) vaddr
            (usizeSub paddr KERNEL_OFFSET) level x w r with
        | none => none
        | some t => some (mem.write node t, fresh, .ok ())
      else
        let inner := fresh.headD 0
        let mem1 := Mem.write mem inner PageTableImpl.new
        match hm : PageTableImpl.map_page_table (mem1 node) vaddr
            (usizeSub inner KERNEL_OFFSET) level with
        | none => none
        | some t =>
          map_root_task_frame (Mem.write mem1 node t) fresh.tail inner
            (level + 1) vaddr paddr x w r
termination_by HAL_PAGE_LEVEL - startLevel
decreasing_by
  have h1 : startLevel ≤ level := search_for_modify_level_ge mem root startLevel
    vaddr HAL_PAGE_LEVEL (.Missing level node) hs
  have h2 : level < HAL_PAGE_LEVEL := PageTableImpl.map_page_table_some_level hm
  unfold HAL_PAGE_LEVEL at h2 ⊢
  omega

/-- `MutPageTableWrapper::map_kernel(vaddr, paddr)` from the source
(lines 53-61).  It touches only the wrapper's own root node, so it is a pure
function of that node's contents. -/
def map_kernel (pt : PageTableImpl) (vaddr paddr : Nat) :
    Option (Except KernelErr (PageTableImpl × Nat)) :=
  match PageTableImpl.get_size 0 with
  | none => none
  | some aligned_size =>
    if ¬ (is_aligned vaddr aligned_size ∧ is_aligned paddr aligned_size) then
      some (.error (.alignErr vaddr paddr))
    else
      let mask := (1 <<< 39) - 1
      match PageTableImpl.map_frame_for_kernel pt (vaddr &&& mask)
          (usizeSub paddr KERNEL_OFFSET) 0 with
      | none => none
      | some t => some (.ok (t, aligned_size))

end MutPageTableWrapper

/-- A successful `map_kernel` always advances by `size_at(0)` bytes. -/
theorem map_kernel_ok_size {pt t : PageTableImpl} {vaddr paddr sz : Nat}
    (h : MutPageTableWrapper.map_kernel pt vaddr paddr = some (.ok (t, sz))) :
    sz = 2 ^ 30 := by
  unfold MutPageTableWrapper.map_kernel at h
  simp only [PageTableImpl.get_size, HAL_PAGE_LEVEL] at h
  norm_num at h
  by_cases ha : is_aligned vaddr 1073741824 = true ∧ is_aligned paddr 1073741824 = true
  · rw [if_neg (by simpa using ha)] at h
    cases hw : PageTableImpl.map_frame_for_kernel pt (vaddr &&& (1 <<< 39 - 1))
        (usizeSub paddr KERNEL_OFFSET) 0 with
    | none => rw [hw] at h; cases h
    | some t2 =>
      rw [hw] at h
      cases h
      rfl
  · rw [if_pos (by simpa using ha)] at h
    cases h

/-- Loop of `map_kernel_window` (source lines 241-244): iterate `start` from
`KERNEL_OFFSET`, mapping `start ↦ start` and advancing by the returned size
with wrapping `usize` addition (`start += ...`), until `start ≥ end`.  The
`fuel` argument is an iteration budget: any terminating run of the source
loop from a level-0-aligned `start` makes at most `2 ^ 34 + 1` iterations
(each one increases `start` by at least `2 ^ 30` while it stays below
`2 ^ 64`; once the addition would pass `2 ^ 64` it overflows instead, which
panics in debug builds and in release wraps `start` below `end` again so the
loop never exits).  With at least that much fuel, `none` therefore coincides
exactly with the source's panic-or-divergence. -/
def map_kernel_window_go (endv : Nat) :
    Nat → PageTableImpl → Nat → Option (Except KernelErr PageTableImpl)
  | 0, _, _ => none
  | fuel + 1, pt, start =>
    if start < endv then
      match MutPageTableWrapper.map_kernel pt start start with
      | none => none
      | some (.error e) => some (.error e)
      | some (.ok (pt2, sz)) => map_kernel_window_go endv fuel pt2 (usizeAdd start sz)
    else some (.ok pt)

/-- Iteration budget exceeding the longest terminating run of the window
loop (see `map_kernel_window_go`). -/
def WINDOW_FUEL : Nat := 2 ^ 34 + 2

/-- `map_kernel_window(kernel_page_table)` from the source (lines 236-247):
builds a fresh local directory, walks `[KERNEL_OFFSET, memory_end)` in
level-0 strides, and moves the built directory into the root (modelled by
returning it).  `memoryEnd` is the third component of the HAL's
`get_memory_info()`, modelled from the spec as a parameter. -/
def map_kernel_window (memoryEnd : Nat) : Option (Except KernelErr PageTableImpl) :=
  map_kernel_window_go memoryEnd WINDOW_FUEL PageTableImpl.new KERNEL_OFFSET

section UpdateLemmas

theorem PageTableImpl.set_apply (t : PageTableImpl) (i : Nat)
    (e : PageTableEntryImpl) (j : Nat) :
    (t.set i e) j = if j = i then e else t j := rfl

theorem PageTableImpl.set_set (t : PageTableImpl) (i : Nat)
    (e e2 : PageTableEntryImpl) : (t.set i e).set i e2 = t.set i e2 := by
  funext j
  simp only [PageTableImpl.set]
  by_cases h : j = i <;> simp [h]

theorem PageTableImpl.set_self (t : PageTableImpl) (i : Nat) :
    t.set i (t i) = t := by
  funext j
  simp only [PageTableImpl.set]
  by_cases h : j = i <;> simp [h]

theorem Mem.write_apply (m : Mem) (p : Nat) (t : PageTableImpl) (q : Nat) :
    (m.write p t) q = if q = p then t else m q := rfl

theorem Mem.write_write (m : Mem) (p : Nat) (t t2 : PageTableImpl) :
    (m.write p t).write p t2 = m.write p t2 := by
  funext q
  simp only [Mem.write]
  by_cases h : q = p <;> simp [h]

theorem Mem.write_self (m : Mem) (p : Nat) : m.write p (m p) = m := by
  funext q
  simp only [Mem.write]
  by_cases h : q = p <;> simp [h]

theorem Mem.writeSlot_get_self (m : Mem) (p i : Nat) (e : PageTableEntryImpl) :
    (m.writeSlot p i e) p i = e := by
  simp [Mem.writeSlot, Mem.write, PageTableImpl.set]

theorem Mem.writeSlot_get_ne (m : Mem) (p i : Nat) (e : PageTableEntryImpl)
    (q j : Nat) (h : ¬ (q = p ∧ j = i)) : (m.writeSlot p i e) q j = m q j := by
  simp only [Mem.writeSlot, Mem.write]
  by_cases hq : q = p
  · subst hq
    have hj : ¬ j = i := fun hji => h ⟨rfl, hji⟩
    simp [PageTableImpl.set, hj]
  · simp [hq]

end UpdateLemmas

namespace MutPageTableWrapper

/-- When the wrapper already sits at or beyond the bound, the guard fires
immediately: the walk reports `Missing` at the starting node without reading
any entry (the result does not depend on the memory at all). -/
theorem search_for_modify_stop (mem : Mem) (root startLevel vaddr maxLevel : Nat)
    (h : maxLevel ≤ startLevel) :
    search_for_modify mem root startLevel vaddr maxLevel =
      some (.Missing startLevel root) := by
  unfold search_for_modify
  rw [Nat.sub_eq_zero_of_le h]
  rfl

/-- One step of the walk below the bound: an invalid slot stops with
`Missing` at the current node, a leaf stops with `Found` at the current
node, and a valid intermediate descends with the level incremented. -/
theorem search_for_modify_step (mem : Mem) (root startLevel vaddr maxLevel i : Nat)
    (h : startLevel < maxLevel)
    (hidx : PageTableImpl.get_index vaddr startLevel = some i) :
    search_for_modify mem root startLevel vaddr maxLevel =
      (if ¬ (mem root i).valid then some (.Missing startLevel root)
       else if (mem root i).leaf then some (.Found startLevel root)
       else search_for_modify mem (mem root i).get_ptr (startLevel + 1)
         vaddr maxLevel) := by
  unfold search_for_modify
  have hf : maxLevel - startLevel = (maxLevel - (startLevel + 1)) + 1 := by omega
  rw [hf]
  simp only [searchGo, hidx]

/-- The walk's result level never exceeds start plus fuel. -/
theorem searchGo_level_le (mem : Mem) (vaddr : Nat) :
    ∀ fuel level pt res, searchGo mem vaddr fuel level pt = some res →
      res.level ≤ level + fuel ∧
        (∀ l n, res = .Found l n → l + 1 ≤ level + fuel) := by
  intro fuel
  induction fuel with
  | zero =>
    intro level pt res h
    simp only [searchGo] at h
    cases h
    constructor
    · simp [SearchResult.level]
    · intro l n hln; cases hln
  | succ m ih =>
    intro level pt res h
    simp only [searchGo] at h
    cases hidx : PageTableImpl.get_index vaddr level with
    | none => rw [hidx] at h; cases h
    | some index =>
      rw [hidx] at h
      simp only at h
      by_cases hv : (mem pt index).valid
      · simp only [hv] at h
        by_cases hl : (mem pt index).leaf
        · simp only [hl, if_pos, if_neg, Bool.not_true] at h
          cases h
          constructor
          · simp only [SearchResult.level]
            omega
          · intro l n hln
            cases hln
            omega
        · simp only [hl, Bool.not_true, if_neg, if_false] at h
          have := ih (level + 1) _ res h
          constructor
          · omega
          · intro l n hln
            have := (ih (level + 1) _ res h).2 l n hln
            omega
      · simp only [hv, Bool.not_false, if_pos] at h
        cases h
        constructor
        · simp only [SearchResult.level]
          omega
        · intro l n hln; cases hln

/-- Below the depth of the tree the walk never panics: every index lookup it
performs is in range. -/
theorem searchGo_isSome (mem : Mem) (vaddr : Nat) :
    ∀ fuel level pt, fuel + level ≤ HAL_PAGE_LEVEL →
      (searchGo mem vaddr fuel level pt).isSome := by
  intro fuel
  induction fuel with
  | zero =>
    intro level pt _
    simp [searchGo]
  | succ m ih =>
    intro level pt hb
    have hidx : PageTableImpl.get_index vaddr level =
        some ((vaddr >>> (12 + 9 * (HAL_PAGE_LEVEL - 1 - level))) % 512) := by
      unfold PageTableImpl.get_index
      rw [if_pos (by omega)]
    simp only [searchGo, hidx]
    by_cases hv : (mem pt ((vaddr >>> (12 + 9 * (HAL_PAGE_LEVEL - 1 - level))) % 512)).valid
    · by_cases hl : (mem pt ((vaddr >>> (12 + 9 * (HAL_PAGE_LEVEL - 1 - level))) % 512)).leaf
      · simp [hv, hl]
      · simp only [hv, hl, Bool.not_true, if_neg, if_false, not_false_eq_true,
          not_true_eq_false]
        exact ih (level + 1) _ (by omega)
    · simp [hv]

/-- The walk returns the deepest node whose slot decided the outcome: a
`Found` result's node holds a valid leaf at the result level's index, and a
`Missing` result's node either sits at the bound or holds an invalid slot. -/
theorem searchGo_deciding (mem : Mem) (vaddr maxLevel : Nat) :
    ∀ fuel level pt res, maxLevel ≤ fuel + level →
      searchGo mem vaddr fuel level pt = some res →
      (∀ l n, res = .Found l n → ∃ i, PageTableImpl.get_index vaddr l = some i ∧
        (mem n i).valid = true ∧ (mem n i).leaf = true) ∧
      (∀ l n, res = .Missing l n → maxLevel ≤ l ∨
        ∃ i, PageTableImpl.get_index vaddr l = some i ∧ (mem n i).valid = false) := by
  intro fuel
  induction fuel with
  | zero =>
    intro level pt res hb h
    simp only [searchGo] at h
    cases h
    constructor
    · intro l n hln; cases hln
    · intro l n hln
      cases hln
      left
      omega
  | succ m ih =>
    intro level pt res hb h
    simp only [searchGo] at h
    cases hidx : PageTableImpl.get_index vaddr level with
    | none => rw [hidx] at h; cases h
    | some index =>
      rw [hidx] at h
      simp only at h
      by_cases hv : (mem pt index).valid
      · simp only [hv] at h
        by_cases hl : (mem pt index).leaf
        · simp only [hl, if_pos, if_neg, Bool.not_true] at h
          cases h
          constructor
          · intro l n hln
            cases hln
            exact ⟨index, hidx, hv, hl⟩
          · intro l n hln; cases hln
        · simp only [hl, Bool.not_true, if_neg, if_false] at h
          exact ih (level + 1) _ res (by omega) h
      · simp only [hv, Bool.not_false, if_pos] at h
        cases h
        constructor
        · intro l n hln; cases hln
        · intro l n hln
          cases hln
          right
          exact ⟨index, hidx, by simpa using hv⟩

end MutPageTableWrapper

section SanityChecks

example : PageTableImpl.get_index 0x100000000000 0 = some 0 := by decide
example : PageTableImpl.get_index 0x100000000000 3 = none := by decide
example : PageTableImpl.get_size 0 = some (2 ^ 30) := by decide
example : usizeSub 0 1 = 2 ^ 64 - 1 := by decide
example : usizeSub 5 1 = 4 := by decide

end SanityChecks

section ConcreteStates

/-- Virtual address of the spec's user-map scenario (§8.2 scenario 2). -/
def vA : Nat := 0x100000000000

/-- Address of the root directory in the concrete scenarios. -/
def rootAddr : Nat := KERNEL_OFFSET

/-- Address of the level-1 directory installed under the root. -/
def nodeA : Nat := KERNEL_OFFSET + 4096

/-- Address of the level-2 directory installed under `nodeA`. -/
def nodeB : Nat := KERNEL_OFFSET + 8192

/-- Root directory whose slot 0 points to `nodeA`. -/
def tblRoot : PageTableImpl :=
  PageTableImpl.new.set 0 ⟨true, false, 4096, false, false, false, false⟩

/-- Level-1 directory whose slot 0 points to `nodeB`. -/
def tblA : PageTableImpl :=
  PageTableImpl.new.set 0 ⟨true, false, 8192, false, false, false, false⟩

/-- Level-2 directory whose slot 0 holds a user leaf. -/
def tblBLeaf : PageTableImpl :=
  PageTableImpl.new.set 0 ⟨true, true, 65536, false, true, true, true⟩

/-- Scenario-2 state after the two `map_page_table` calls and the `map_frame`:
a full intermediate chain for `vA` with a mapped leaf at the deepest level. -/
def memChainLeaf : Mem := fun q =>
  if q = rootAddr then tblRoot
  else if q = nodeA then tblA
  else if q = nodeB then tblBLeaf
  else PageTableImpl.new

/-- Scenario-2 state after the final `unmap_frame`: the intermediate chain
for `vA` with the deepest slot empty again. -/
def memChainNoLeaf : Mem := fun q =>
  if q = rootAddr then tblRoot
  else if q = nodeA then tblA
  else PageTableImpl.new

/-- Memory with every node empty (a fresh, all-invalid world). -/
def memEmpty : Mem := fun _ => PageTableImpl.new

/-- State with a single kernel leaf in the root at index 0. -/
def memLeafAtRoot : Mem := fun q =>
  if q = rootAddr then
    PageTableImpl.new.set 0 ⟨true, true, 0, true, true, true, false⟩
  else PageTableImpl.new

end ConcreteStates

/-- C4: for every starting node, starting level, vaddr and max level, the
walk classifies exactly as specified — at or beyond the bound it stops with
`Missing` at the current node (without reading memory); below the bound an
invalid indexed entry yields `Missing(level, current)`, a valid leaf yields
`Found(level, current)`, and a valid intermediate descends into the child
with the level incremented; and the node returned in both outcomes is the
deepest node whose slot decided the outcome (its own indexed slot is the
valid leaf, respectively the invalid entry, not the child's). -/
theorem c4_search_classification (mem : Mem) (root startLevel vaddr maxLevel : Nat) :
    (maxLevel ≤ startLevel →
      MutPageTableWrapper.search_for_modify mem root startLevel vaddr maxLevel =
        some (.Missing startLevel root)) ∧
    (∀ i, startLevel < maxLevel →
      PageTableImpl.get_index vaddr startLevel = some i →
      ((mem root i).valid = false →
        MutPageTableWrapper.search_for_modify mem root startLevel vaddr maxLevel =
          some (.Missing startLevel root)) ∧
      ((mem root i).valid = true → (mem root i).leaf = true →
        MutPageTableWrapper.search_for_modify mem root startLevel vaddr maxLevel =
          some (.Found startLevel root)) ∧
      ((mem root i).valid = true → (mem root i).leaf = false →
        MutPageTableWrapper.search_for_modify mem root startLevel vaddr maxLevel =
          MutPageTableWrapper.search_for_modify mem (mem root i).get_ptr
            (startLevel + 1) vaddr maxLevel)) ∧
    (∀ res, MutPageTableWrapper.search_for_modify mem root startLevel vaddr maxLevel =
        some res →
      (∀ l n, res = .Found l n → ∃ i, PageTableImpl.get_index vaddr l = some i ∧
        (mem n i).valid = true ∧ (mem n i).leaf = true) ∧
      (∀ l n, res = .Missing l n → maxLevel ≤ l ∨
        ∃ i, PageTableImpl.get_index vaddr l = some i ∧ (mem n i).valid = false)) := by
  refine ⟨?_, ?_, ?_⟩
  · intro h
    exact MutPageTableWrapper.search_for_modify_stop mem root startLevel vaddr maxLevel h
  · intro i hlt hidx
    have hstep := MutPageTableWrapper.search_for_modify_step mem root startLevel
      vaddr maxLevel i hlt hidx
    refine ⟨?_, ?_, ?_⟩
    · intro hv
      rw [hstep, if_pos]
      simp [hv]
    · intro hv hl
      rw [hstep, if_neg (by simp [hv]), if_pos hl]
    · intro hv hl
      rw [hstep, if_neg (by simp [hv]), if_neg (by simp [hl])]
  · intro res hres
    exact MutPageTableWrapper.searchGo_deciding mem vaddr maxLevel
      (maxLevel - startLevel) startLevel root res (by omega) hres

/-- Closed instance of `c4_search_classification` on the scenario-2 state:
from the root the walk descends the valid intermediate at slot 0 (so the
full-depth walk equals the walk from `nodeA` at level 1), and the full-depth
result `Found 2 nodeB` carries the deepest node, whose own slot holds the
valid leaf. -/
theorem c4_search_classification_witness :
    (MutPageTableWrapper.search_for_modify memChainLeaf rootAddr 0 vA 3 =
      MutPageTableWrapper.search_for_modify memChainLeaf
        (memChainLeaf rootAddr 0).get_ptr 1 vA 3) ∧
    (∃ i, PageTableImpl.get_index vA 2 = some i ∧
      (memChainLeaf nodeB i).valid = true ∧ (memChainLeaf nodeB i).leaf = true) := by
  constructor
  · exact (((c4_search_classification memChainLeaf rootAddr 0 vA 3).2.1 0
      (by decide) (by decide)).2.2 (by decide) (by decide))
  · exact ((c4_search_classification memChainLeaf rootAddr 0 vA 3).2.2
      (.Found 2 nodeB) (by decide)).1 2 nodeB rfl

/-- C8: every walk with a start level within a bound of at most
`HAL_PAGE_LEVEL` terminates without panicking, descending at most
`HAL_PAGE_LEVEL` times, and the returned level is bounded:
`startLevel ≤ level < maxLevel ≤ HAL_PAGE_LEVEL` on `Found`, and
`startLevel ≤ level ≤ maxLevel` on `Missing` (the `level ≥ max_level` guard
fires before any entry is read, which is why the guard case of the walk
holds uniformly in the memory). -/
theorem c8_depth_bound (mem : Mem) (root startLevel vaddr maxLevel : Nat)
    (h1 : startLevel ≤ maxLevel) (h2 : maxLevel ≤ HAL_PAGE_LEVEL) :
    ∃ res, MutPageTableWrapper.search_for_modify mem root startLevel vaddr maxLevel =
        some res ∧
      res.level ≤ maxLevel ∧
      res.level - startLevel ≤ HAL_PAGE_LEVEL ∧
      (∀ l n, res = .Found l n → startLevel ≤ l ∧ l < maxLevel ∧ l < HAL_PAGE_LEVEL) ∧
      (∀ l n, res = .Missing l n → startLevel ≤ l ∧ l ≤ maxLevel) := by
  have hsome := MutPageTableWrapper.searchGo_isSome mem vaddr
    (maxLevel - startLevel) startLevel root (by omega)
  obtain ⟨res, hres⟩ := Option.isSome_iff_exists.mp hsome
  refine ⟨res, hres, ?_, ?_, ?_, ?_⟩
  · have := (MutPageTableWrapper.searchGo_level_le mem vaddr
      (maxLevel - startLevel) startLevel root res hres).1
    omega
  · have := (MutPageTableWrapper.searchGo_level_le mem vaddr
      (maxLevel - startLevel) startLevel root res hres).1
    unfold HAL_PAGE_LEVEL at h2 ⊢
    omega
  · intro l n hln
    have hgt := (MutPageTableWrapper.searchGo_level_le mem vaddr
      (maxLevel - startLevel) startLevel root res hres).2 l n hln
    have hge := MutPageTableWrapper.searchGo_level_ge mem vaddr
      (maxLevel - startLevel) startLevel root res hres
    subst hln
    simp only [SearchResult.level] at hge
    omega
  · intro l n hln
    have hle := (MutPageTableWrapper.searchGo_level_le mem vaddr
      (maxLevel - startLevel) startLevel root res hres).1
    have hge := MutPageTableWrapper.searchGo_level_ge mem vaddr
      (maxLevel - startLevel) startLevel root res hres
    subst hln
    simp only [SearchResult.level] at hle hge
    omega

/-- Closed instance of `c8_depth_bound` on the scenario-2 state at full
depth: the walk returns a result whose level obeys all the bounds. -/
theorem c8_depth_bound_witness :
    ∃ res, MutPageTableWrapper.search_for_modify memChainLeaf rootAddr 0 vA 3 =
        some res ∧
      res.level ≤ 3 ∧
      res.level - 0 ≤ HAL_PAGE_LEVEL ∧
      (∀ l n, res = .Found l n → 0 ≤ l ∧ l < 3 ∧ l < HAL_PAGE_LEVEL) ∧
      (∀ l n, res = .Missing l n → 0 ≤ l ∧ l ≤ 3) :=
  c8_depth_bound memChainLeaf rootAddr 0 vA 3 (by decide) (by decide)

/-- When the full-depth walk reports `Missing` at the deepest level,
`map_frame` writes a user leaf carrying the offset-corrected address and the
given permissions into the deciding node's indexed slot. -/
theorem map_frame_writes_user_leaf (mem : Mem) (root vaddr paddr : Nat)
    (x w r : Bool) (node i : Nat)
    (hva : is_aligned vaddr 4096 = true) (hpa : is_aligned paddr 4096 = true)
    (hsearch : MutPageTableWrapper.search_for_modify mem root 0 vaddr
      HAL_PAGE_LEVEL = some (.Missing (HAL_PAGE_LEVEL - 1) node))
    (hidx : PageTableImpl.get_index vaddr (HAL_PAGE_LEVEL - 1) = some i) :
    MutPageTableWrapper.map_frame mem root 0 vaddr paddr x w r =
      some (mem.writeSlot node i
        ⟨true, true, usizeSub paddr KERNEL_OFFSET, x, w, r, true⟩, .ok ()) := by
  unfold MutPageTableWrapper.map_frame
  rw [if_neg (by simp [hva, hpa]), hsearch]
  simp only [if_pos rfl]
  unfold PageTableImpl.map_frame_for_user
  rw [hidx]
  rfl

/-- C2: for aligned `vaddr` and `paddr`, `map_frame` writes a user leaf with
the given permissions into the deciding node and returns Ok when the walk
reports `Missing` at level `HAL_PAGE_LEVEL - 1`; it returns `PageTableMiss`
when the walk reports `Missing` at a shallower level; and it returns
`MappedAlready` without mutating the tree when the walk reports `Found`. -/
theorem c2_map_frame (mem : Mem) (root vaddr paddr : Nat) (x w r : Bool)
    (hva : is_aligned vaddr 4096 = true) (hpa : is_aligned paddr 4096 = true) :
    (∀ node i,
      MutPageTableWrapper.search_for_modify mem root 0 vaddr HAL_PAGE_LEVEL =
        some (.Missing (HAL_PAGE_LEVEL - 1) node) →
      PageTableImpl.get_index vaddr (HAL_PAGE_LEVEL - 1) = some i →
      MutPageTableWrapper.map_frame mem root 0 vaddr paddr x w r =
        some (mem.writeSlot node i
          ⟨true, true, usizeSub paddr KERNEL_OFFSET, x, w, r, true⟩, .ok ())) ∧
    (∀ l node,
      MutPageTableWrapper.search_for_modify mem root 0 vaddr HAL_PAGE_LEVEL =
        some (.Missing l node) → l < HAL_PAGE_LEVEL - 1 →
      MutPageTableWrapper.map_frame mem root 0 vaddr paddr x w r =
        some (mem, .error .PageTableMiss)) ∧
    (∀ l node,
      MutPageTableWrapper.search_for_modify mem root 0 vaddr HAL_PAGE_LEVEL =
        some (.Found l node) →
      MutPageTableWrapper.map_frame mem root 0 vaddr paddr x w r =
        some (mem, .error .MappedAlready)) := by
  refine ⟨?_, ?_, ?_⟩
  · intro node i hsearch hidx
    exact map_frame_writes_user_leaf mem root vaddr paddr x w r node i
      hva hpa hsearch hidx
  · intro l node hsearch hl
    unfold MutPageTableWrapper.map_frame
    rw [if_neg (by simp [hva, hpa]), hsearch]
    simp only
    rw [if_neg (by omega)]
  · intro l node hsearch
    unfold MutPageTableWrapper.map_frame
    rw [if_neg (by simp [hva, hpa]), hsearch]

/-- Closed instance of `c2_map_frame`: on the chain without a leaf the call
writes the user leaf and succeeds; on the fully mapped chain it reports
`MappedAlready`; on a fresh root it reports `PageTableMiss`. -/
theorem c2_map_frame_witness :
    MutPageTableWrapper.map_frame memChainNoLeaf rootAddr 0 vA
        (KERNEL_OFFSET + 65536) false true true =
      some (memChainNoLeaf.writeSlot nodeB 0
        ⟨true, true, usizeSub (KERNEL_OFFSET + 65536) KERNEL_OFFSET,
          false, true, true, true⟩, .ok ()) ∧
    MutPageTableWrapper.map_frame memChainLeaf rootAddr 0 vA
        (KERNEL_OFFSET + 65536) false true true =
      some (memChainLeaf, .error .MappedAlready) ∧
    MutPageTableWrapper.map_frame (fun _ => PageTableImpl.new) rootAddr 0
        0x200000000000 (KERNEL_OFFSET + 65536) true true true =
      some ((fun _ => PageTableImpl.new), .error .PageTableMiss) := by
  refine ⟨?_, ?_, ?_⟩
  · exact (c2_map_frame memChainNoLeaf rootAddr vA (KERNEL_OFFSET + 65536)
      false true true (by decide) (by decide)).1 nodeB 0 (by decide) (by decide)
  · exact (c2_map_frame memChainLeaf rootAddr vA (KERNEL_OFFSET + 65536)
      false true true (by decide) (by decide)).2.2 2 nodeB (by decide)
  · exact (c2_map_frame (fun _ => PageTableImpl.new) rootAddr 0x200000000000
      (KERNEL_OFFSET + 65536) true true true (by decide) (by decide)).2.1 0
      rootAddr (by decide) (by decide)

/-- C5 (amended): a misaligned checked argument never mutates the tree and
yields the operation's misalignment error — `InvalidParam` for the four
`ResponseLabel`-returning operations (which check `vaddr`, and `paddr` where
they take one, except `unmap_page_table`, which never checks `paddr`), and a
formatted error string for `map_kernel` (level-0 alignment) and
`map_root_task_frame`. -/
theorem c5_alignment (mem : Mem) (fresh : List Nat)
    (root startLevel vaddr paddr level : Nat) (x w r : Bool) :
    (¬ (is_aligned vaddr 4096 = true ∧ is_aligned paddr 4096 = true) →
      MutPageTableWrapper.map_page_table mem root startLevel vaddr paddr =
        some (mem, .error .InvalidParam)) ∧
    (¬ (is_aligned vaddr 4096 = true ∧ is_aligned paddr 4096 = true) →
      MutPageTableWrapper.map_frame mem root startLevel vaddr paddr x w r =
        some (mem, .error .InvalidParam)) ∧
    (¬ is_aligned vaddr 4096 = true →
      MutPageTableWrapper.unmap_frame mem root startLevel vaddr =
        some (mem, .error .InvalidParam)) ∧
    (¬ is_aligned vaddr 4096 = true →
      MutPageTableWrapper.unmap_page_table mem root startLevel vaddr paddr level =
        some (mem, .error .InvalidParam)) ∧
    (∀ pt : PageTableImpl,
      ¬ (is_aligned vaddr (2 ^ 30) = true ∧ is_aligned paddr (2 ^ 30) = true) →
      MutPageTableWrapper.map_kernel pt vaddr paddr =
        some (.error (.alignErr vaddr paddr))) ∧
    (¬ (is_aligned vaddr 4096 = true ∧ is_aligned paddr 4096 = true) →
      MutPageTableWrapper.map_root_task_frame mem fresh root startLevel vaddr paddr
          x w r =
        some (mem, fresh, .error (.alignErr vaddr paddr))) := by
  refine ⟨?_, ?_, ?_, ?_, ?_, ?_⟩
  · intro h
    unfold MutPageTableWrapper.map_page_table
    rw [if_pos h]
  · intro h
    unfold MutPageTableWrapper.map_frame
    rw [if_pos h]
  · intro h
    unfold MutPageTableWrapper.unmap_frame
    rw [if_pos h]
  · intro h
    unfold MutPageTableWrapper.unmap_page_table
    rw [if_pos h]
  · intro pt h
    unfold MutPageTableWrapper.map_kernel
    have hsz : PageTableImpl.get_size 0 = some (2 ^ 30) := by decide
    rw [hsz]
    simp only [if_pos h]
  · intro h
    rw [MutPageTableWrapper.map_root_task_frame]
    rw [if_pos h]

/-- Counterexample to C5 as stated: `unmap_page_table` performs no alignment
check on `paddr`.  With an aligned `vaddr` whose path hits a leaf, a call
with the misaligned `paddr = 1` returns `MappedAlready`, not the
`InvalidParam` the claim requires for every misaligned argument. -/
theorem c5_counterexample :
    MutPageTableWrapper.unmap_page_table memLeafAtRoot rootAddr 0 0 1 2 =
      some (memLeafAtRoot, .error .MappedAlready) ∧
    ResponseLabel.MappedAlready ≠ ResponseLabel.InvalidParam :=
  ⟨rfl, by decide⟩

/-- Closed instance of `c5_alignment`: each operation rejects the misaligned
virtual address 1 (and, for `map_kernel`, the sub-1-GiB-aligned 4096)
without touching the tree. -/
theorem c5_alignment_witness :
    MutPageTableWrapper.map_page_table memChainLeaf rootAddr 0 1 4096 =
      some (memChainLeaf, .error .InvalidParam) ∧
    MutPageTableWrapper.map_frame memChainLeaf rootAddr 0 1 4096 true true true =
      some (memChainLeaf, .error .InvalidParam) ∧
    MutPageTableWrapper.unmap_frame memChainLeaf rootAddr 0 1 =
      some (memChainLeaf, .error .InvalidParam) ∧
    MutPageTableWrapper.unmap_page_table memChainLeaf rootAddr 0 1 4096 2 =
      some (memChainLeaf, .error .InvalidParam) ∧
    MutPageTableWrapper.map_kernel tblRoot 4096 4096 =
      some (.error (.alignErr 4096 4096)) ∧
    MutPageTableWrapper.map_root_task_frame memChainLeaf [] rootAddr 0 1 4096
        true true true =
      some (memChainLeaf, [], .error (.alignErr 1 4096)) := by
  have h := c5_alignment memChainLeaf [] rootAddr 0 1 4096 2 true true true
  have h2 := c5_alignment memChainLeaf [] rootAddr 0 4096 4096 2 true true true
  exact ⟨h.1 (by decide), h.2.1 (by decide), h.2.2.1 (by decide),
    h.2.2.2.1 (by decide), h2.2.2.2.2.1 tblRoot (by decide),
    h.2.2.2.2.2 (by decide)⟩

/-- C9: for an aligned `vaddr`, `unmap_page_table` passes the wrapping
`usize` difference `level - 1` as the walk bound; at `level = 0` that bound
wraps to `usize::MAX = 2 ^ 64 - 1` instead of the mathematical `level - 1`,
so the operation is only well-defined under the unstated precondition
`level ≥ 1`, where the bound is the intended `level - 1`. -/
theorem c9_unmap_page_table_level_underflow :
    (∀ (mem : Mem) (root startLevel vaddr paddr level : Nat),
      is_aligned vaddr 4096 = true →
      MutPageTableWrapper.unmap_page_table mem root startLevel vaddr paddr level =
        MutPageTableWrapper.unmap_page_table_core mem root startLevel vaddr paddr
          (usizeSub level 1)) ∧
    usizeSub 0 1 = 2 ^ 64 - 1 ∧
    (∀ level, 1 ≤ level → level < 2 ^ 64 → usizeSub level 1 = level - 1) := by
  refine ⟨?_, by decide, ?_⟩
  · intro mem root startLevel vaddr paddr level h
    unfold MutPageTableWrapper.unmap_page_table
    rw [if_neg (by simp [h])]
  · intro level h1 h2
    unfold usizeSub USIZE_MOD
    have hm : (1 : Nat) % 2 ^ 64 = 1 := by decide
    rw [hm]
    omega

/-- Closed instance of `c9_unmap_page_table_level_underflow`: the call with
`level = 0` runs the walk with the wrapped bound `2 ^ 64 - 1`. -/
theorem c9_unmap_page_table_level_underflow_witness :
    MutPageTableWrapper.unmap_page_table memChainLeaf rootAddr 0 vA nodeB 0 =
      MutPageTableWrapper.unmap_page_table_core memChainLeaf rootAddr 0 vA nodeB
        (2 ^ 64 - 1) ∧
    usizeSub 3 1 = 2 := by
  constructor
  · have h := c9_unmap_page_table_level_underflow.1 memChainLeaf rootAddr 0 vA
      nodeB 0 (by decide)
    rw [h, c9_unmap_page_table_level_underflow.2.1]
  · rw [c9_unmap_page_table_level_underflow.2.2 3 (by decide) (by decide)]

/-- C10: every mapping operation stores the wrapping `usize` difference
`paddr - KERNEL_OFFSET` in the entry it writes: `map_frame`,
`map_page_table`, `map_root_task_frame` (deepest-level case shown) and
`map_kernel` all write an entry whose address field is
`usizeSub paddr KERNEL_OFFSET`.  For `paddr ≥ KERNEL_OFFSET` that is the
intended difference, while any `paddr` below `KERNEL_OFFSET` wraps (adding
`2 ^ 64 - KERNEL_OFFSET = 2 ^ 38`), so the operations are only well-defined
under the unstated precondition `paddr ≥ KERNEL_OFFSET`. -/
theorem c10_paddr_kernel_offset_underflow :
    (∀ paddr, KERNEL_OFFSET ≤ paddr → paddr < 2 ^ 64 →
      usizeSub paddr KERNEL_OFFSET = paddr - KERNEL_OFFSET) ∧
    (∀ paddr, paddr < KERNEL_OFFSET →
      usizeSub paddr KERNEL_OFFSET = paddr + 2 ^ 38) ∧
    2 ^ 64 - KERNEL_OFFSET = 2 ^ 38 ∧
    (∀ (mem : Mem) (root vaddr paddr : Nat) (x w r : Bool) (node i : Nat),
      is_aligned vaddr 4096 = true → is_aligned paddr 4096 = true →
      MutPageTableWrapper.search_for_modify mem root 0 vaddr HAL_PAGE_LEVEL =
        some (.Missing (HAL_PAGE_LEVEL - 1) node) →
      PageTableImpl.get_index vaddr (HAL_PAGE_LEVEL - 1) = some i →
      MutPageTableWrapper.map_frame mem root 0 vaddr paddr x w r =
        some (mem.writeSlot node i
          ⟨true, true, usizeSub paddr KERNEL_OFFSET, x, w, r, true⟩, .ok ()) ∧
      MutPageTableWrapper.map_root_task_frame mem [] root 0 vaddr paddr x w r =
        some (mem.writeSlot node i
          ⟨true, true, usizeSub paddr KERNEL_OFFSET, x, w, r, true⟩, [], .ok ())) ∧
    (∀ (mem : Mem) (root vaddr paddr : Nat) (l node i : Nat),
      is_aligned vaddr 4096 = true → is_aligned paddr 4096 = true →
      MutPageTableWrapper.search_for_modify mem root 0 vaddr HAL_PAGE_LEVEL =
        some (.Missing l node) → l < HAL_PAGE_LEVEL - 1 →
      PageTableImpl.get_index vaddr l = some i →
      MutPageTableWrapper.map_page_table mem root 0 vaddr paddr =
        some (mem.writeSlot node i
          ⟨true, false, usizeSub paddr KERNEL_OFFSET, false, false, false, false⟩,
          .ok (l + 1))) ∧
    (∀ (pt : PageTableImpl) (vaddr paddr i : Nat),
      is_aligned vaddr (2 ^ 30) = true → is_aligned paddr (2 ^ 30) = true →
      PageTableImpl.get_index (vaddr &&& ((1 <<< 39) - 1)) 0 = some i →
      MutPageTableWrapper.map_kernel pt vaddr paddr =
        some (.ok (pt.set i
          ⟨true, true, usizeSub paddr KERNEL_OFFSET, true, true, true, false⟩,
          2 ^ 30))) := by
  refine ⟨?_, ?_, by decide, ?_, ?_, ?_⟩
  · intro paddr h1 h2
    unfold KERNEL_OFFSET at h1
    unfold usizeSub USIZE_MOD KERNEL_OFFSET
    have hm : (0xffffffc000000000 : Nat) % 2 ^ 64 = 0xffffffc000000000 := by decide
    rw [hm]
    omega
  · intro paddr h1
    unfold KERNEL_OFFSET at h1
    unfold usizeSub USIZE_MOD KERNEL_OFFSET
    have hm : (0xffffffc000000000 : Nat) % 2 ^ 64 = 0xffffffc000000000 := by decide
    rw [hm]
    omega
  · intro mem root vaddr paddr x w r node i hva hpa hsearch hidx
    constructor
    · exact map_frame_writes_user_leaf mem root vaddr paddr x w r node i
        hva hpa hsearch hidx
    · rw [MutPageTableWrapper.map_root_task_frame,
        if_neg (by simp [hva, hpa]), hsearch]
      simp only [if_pos rfl]
      unfold PageTableImpl.map_frame_for_user
      rw [hidx]
      rfl
  · intro mem root vaddr paddr l node i hva hpa hsearch hl hidx
    unfold MutPageTableWrapper.map_page_table
    rw [if_neg (by simp [hva, hpa]), hsearch]
    simp only
    rw [if_neg (by omega)]
    unfold PageTableImpl.map_page_table
    rw [hidx]
    rfl
  · intro pt vaddr paddr i hva hpa hidx
    unfold MutPageTableWrapper.map_kernel
    have hsz : PageTableImpl.get_size 0 = some (2 ^ 30) := by decide
    rw [hsz]
    have hcond : ¬ ¬ (is_aligned vaddr (2 ^ 30) = true ∧
        is_aligned paddr (2 ^ 30) = true) := not_not_intro ⟨hva, hpa⟩
    simp only [if_neg hcond]
    unfold PageTableImpl.map_frame_for_kernel
    rw [hidx]
    rfl

/-- In the kernel-offset domain the wrapping subtraction agrees with the
mathematical difference. -/
theorem usizeSub_kernel_offset_of_le (p : Nat) (h1 : KERNEL_OFFSET ≤ p)
    (h2 : p < 2 ^ 64) : usizeSub p KERNEL_OFFSET = p - KERNEL_OFFSET := by
  unfold KERNEL_OFFSET at h1
  unfold usizeSub USIZE_MOD KERNEL_OFFSET
  have hm : (0xffffffc000000000 : Nat) % 2 ^ 64 = 0xffffffc000000000 := by decide
  rw [hm]
  omega

/-- Masking a virtual address to 39 bits does not change its level-0 index. -/
theorem windowIdx_masked (v : Nat) :
    ((v &&& ((1 <<< 39) - 1)) >>> 30) % 512 = (v >>> 30) % 512 := by
  have hmask : ((1 <<< 39 : Nat)) - 1 = 2 ^ 39 - 1 := by decide
  rw [hmask, Nat.and_pow_two_sub_one_eq_mod, Nat.shiftRight_eq_div_pow,
    Nat.shiftRight_eq_div_pow]
  have h39 : (2 : Nat) ^ 39 = 549755813888 := by decide
  have h30 : (2 : Nat) ^ 30 = 1073741824 := by decide
  rw [h39, h30]
  omega

/-- Distinct level-0-aligned addresses inside the kernel window occupy
distinct level-0 slots. -/
theorem windowIdx_inj (v1 v2 : Nat) (h1 : v1 % 2 ^ 30 = 0) (h2 : v2 % 2 ^ 30 = 0)
    (h3 : KERNEL_OFFSET ≤ v1) (h4 : v1 < 2 ^ 64) (h5 : KERNEL_OFFSET ≤ v2)
    (h6 : v2 < 2 ^ 64) (hne : v1 ≠ v2) :
    (v1 >>> 30) % 512 ≠ (v2 >>> 30) % 512 := by
  rw [Nat.shiftRight_eq_div_pow, Nat.shiftRight_eq_div_pow]
  unfold KERNEL_OFFSET at h3 h5
  have h30 : (2 : Nat) ^ 30 = 1073741824 := by decide
  have h64 : (2 : Nat) ^ 64 = 18446744073709551616 := by decide
  rw [h30] at h1 h2 ⊢
  rw [h64] at h4 h6
  omega

/-- Below the `usize` boundary the wrapping addition agrees with the
mathematical sum. -/
theorem usizeAdd_eq_of_lt (a b : Nat) (h : a + b < 2 ^ 64) :
    usizeAdd a b = a + b := by
  unfold usizeAdd USIZE_MOD
  omega

/-- On a level-0-aligned address, `map_kernel` writes the kernel leaf at the
address's level-0 slot and returns the level-0 stride. -/
theorem map_kernel_aligned (pt : PageTableImpl) (start : Nat)
    (h1 : start % 2 ^ 30 = 0) :
    MutPageTableWrapper.map_kernel pt start start =
      some (.ok (pt.set ((start >>> 30) % 512)
        ⟨true, true, usizeSub start KERNEL_OFFSET, true, true, true, false⟩,
        2 ^ 30)) := by
  have hal : is_aligned start (2 ^ 30) = true := by
    unfold is_aligned
    rw [h1]
    rfl
  have hgi : PageTableImpl.get_index (start &&& ((1 <<< 39) - 1)) 0 =
      some (((start &&& ((1 <<< 39) - 1)) >>> 30) % 512) := by
    unfold PageTableImpl.get_index HAL_PAGE_LEVEL
    norm_num
  unfold MutPageTableWrapper.map_kernel
  rw [show PageTableImpl.get_size 0 = some (2 ^ 30) from by decide]
  have hcond : ¬ ¬ (is_aligned start (2 ^ 30) = true ∧
      is_aligned start (2 ^ 30) = true) := not_not_intro ⟨hal, hal⟩
  simp only [if_neg hcond]
  unfold PageTableImpl.map_frame_for_kernel
  rw [hgi, windowIdx_masked start]
  rfl

/-- Loop invariant of the kernel-window construction: when the end lies at
least one stride below the `usize` boundary (so the advancing addition never
wraps), the loop from any level-0-aligned `start` at or above
`KERNEL_OFFSET` with sufficient fuel succeeds, maps every level-0-aligned
address of `[start, endv)` to its offset-corrected physical address in its
own level-0 slot, and leaves every other slot of the directory untouched. -/
theorem map_kernel_window_go_spec (endv : Nat) (hend : endv + 2 ^ 30 ≤ 2 ^ 64) :
    ∀ fuel start pt, 1 ≤ fuel → endv + 2 ^ 30 ≤ start + fuel * 2 ^ 30 →
      start % 2 ^ 30 = 0 → KERNEL_OFFSET ≤ start →
      ∃ pt2, map_kernel_window_go endv fuel pt start = some (.ok pt2) ∧
        (∀ v, start ≤ v → v < endv → v % 2 ^ 30 = 0 →
          pt2 ((v >>> 30) % 512) =
            ⟨true, true, v - KERNEL_OFFSET, true, true, true, false⟩) ∧
        (∀ j, (∀ v, start ≤ v → v < endv → v % 2 ^ 30 = 0 →
            j ≠ (v >>> 30) % 512) → pt2 j = pt j) := by
  intro fuel
  induction fuel with
  | zero =>
    intro start pt hf1 hf2 h1 h2
    omega
  | succ m ih =>
    intro start pt hf1 hf2 h1 h2
    by_cases hlt : start < endv
    · simp only [map_kernel_window_go, if_pos hlt, map_kernel_aligned pt start h1]
      rw [usizeAdd_eq_of_lt start (2 ^ 30) (by omega)]
      obtain ⟨pt2, hgo, hcov, hpres⟩ := ih (start + 2 ^ 30)
        (pt.set ((start >>> 30) % 512)
          ⟨true, true, usizeSub start KERNEL_OFFSET, true, true, true, false⟩)
        (by omega) (by omega) (by omega) (by omega)
      refine ⟨pt2, hgo, ?_, ?_⟩
      · intro v hv1 hv2 hv3
        by_cases hv : start + 2 ^ 30 ≤ v
        · exact hcov v hv hv2 hv3
        · have hveq : v = start := by omega
          subst hveq
          rw [hpres ((v >>> 30) % 512) ?collide]
          case collide =>
            intro v2 hv21 hv22 hv23
            exact windowIdx_inj v v2 hv3 hv23 h2 (by omega) (by omega)
              (by omega) (by omega)
          rw [usizeSub_kernel_offset_of_le v h2 (by omega)]
          simp [PageTableImpl.set]
      · intro j hj
        rw [hpres j (fun v2 hv21 hv22 hv23 => hj v2 (by omega) hv22 hv23)]
        have hjs : j ≠ (start >>> 30) % 512 := hj start le_rfl hlt h1
        simp [PageTableImpl.set, hjs]
    · simp only [map_kernel_window_go, if_neg hlt]
      exact ⟨pt, rfl, fun v hv1 hv2 _ => by omega, fun j _ => rfl⟩

/-- Fidelity of the wrap case: when the reported end lies within one stride
of the `usize` boundary, every level-0-aligned `start` below `2 ^ 64` stays
below the end, so the loop's wrapping advance can never exit and the model
reports the source's panic-or-divergence (`none`) whatever the fuel. -/
theorem map_kernel_window_go_overflow_none (endv : Nat)
    (hbig : 2 ^ 64 - 2 ^ 30 < endv) :
    ∀ fuel start pt, start % 2 ^ 30 = 0 → start < 2 ^ 64 →
      map_kernel_window_go endv fuel pt start = none := by
  intro fuel
  induction fuel with
  | zero => intro start pt _ _; rfl
  | succ m ih =>
    intro start pt h1 h2
    have hlt : start < endv := by omega
    simp only [map_kernel_window_go, if_pos hlt, map_kernel_aligned pt start h1]
    exact ih (usizeAdd start (2 ^ 30)) _
      (by unfold usizeAdd USIZE_MOD; omega)
      (by unfold usizeAdd USIZE_MOD; omega)

/-- In the overflow range the whole window construction yields no result,
matching the source (debug panic or release non-termination). -/
theorem map_kernel_window_overflow_none (memoryEnd : Nat)
    (hbig : 2 ^ 64 - 2 ^ 30 < memoryEnd) : map_kernel_window memoryEnd = none :=
  map_kernel_window_go_overflow_none memoryEnd hbig WINDOW_FUEL KERNEL_OFFSET
    PageTableImpl.new (by decide) (by decide)

/-- C3: for a memory end at least one level-0 stride below the `usize`
boundary (beyond which the source loop's wrapping `start += size` overflows
and the build never succeeds, see `map_kernel_window_overflow_none`),
`map_kernel_window` (which iterates `start` from `KERNEL_OFFSET`, mapping
`start ↦ start` and advancing by the returned level-0 size until
`start ≥ memory_end`, then hands the locally built directory to the caller's
root) succeeds and the built directory contains, for every level-0-aligned
physical address `p` with `KERNEL_OFFSET + p` below the reported end, a
level-0 leaf at the slot of virtual address `KERNEL_OFFSET + p` mapping to
physical address `p`. -/
theorem c3_kernel_window (memoryEnd : Nat) (hend : memoryEnd + 2 ^ 30 ≤ 2 ^ 64) :
    ∃ pt, map_kernel_window memoryEnd = some (.ok pt) ∧
      ∀ p, p % 2 ^ 30 = 0 → KERNEL_OFFSET + p < memoryEnd →
        pt (((KERNEL_OFFSET + p) >>> 30) % 512) =
          ⟨true, true, p, true, true, true, false⟩ := by
  obtain ⟨pt2, hgo, hcov, _⟩ := map_kernel_window_go_spec memoryEnd hend
    WINDOW_FUEL KERNEL_OFFSET PageTableImpl.new (by decide)
    (by unfold WINDOW_FUEL KERNEL_OFFSET; omega) (by decide) le_rfl
  refine ⟨pt2, hgo, ?_⟩
  intro p hp1 hp2
  have halign : (KERNEL_OFFSET + p) % 2 ^ 30 = 0 := by
    unfold KERNEL_OFFSET
    omega
  have h := hcov (KERNEL_OFFSET + p) (Nat.le_add_right _ _) hp2 halign
  rwa [Nat.add_sub_cancel_left] at h

/-- Closed instance of `c3_kernel_window` at the spec's scenario-1 memory
size (2 GiB of physical memory seen through the kernel window): the window
build succeeds and covers both gigabyte frames. -/
theorem c3_kernel_window_witness :
    ∃ pt, map_kernel_window (KERNEL_OFFSET + 0x80000000) = some (.ok pt) ∧
      ∀ p, p % 2 ^ 30 = 0 → KERNEL_OFFSET + p < KERNEL_OFFSET + 0x80000000 →
        pt (((KERNEL_OFFSET + p) >>> 30) % 512) =
          ⟨true, true, p, true, true, true, false⟩ :=
  c3_kernel_window (KERNEL_OFFSET + 0x80000000) (by decide)

/-- C1: evaluation of the code at the failing input of the claim.  On the
scenario-2 state the full-depth walk still finds the mapped leaf under
`vA` (first conjunct), yet `unmap_page_table(vA, nodeB, 2)` — whose internal
walk is bounded by `level - 1 = 1` and therefore never reaches the leaf at
level 2 — succeeds with Ok (second conjunct) and clears the intermediate
slot in `nodeA` (third conjunct), which previously held a valid pointer
(fourth conjunct).  The claim (and the spec's scenario 5) requires
`MappedAlready` with the tree unchanged here. -/
theorem c1_unmap_page_table_ignores_leaf_below :
    MutPageTableWrapper.search_for_modify memChainLeaf rootAddr 0 vA 3 =
      some (.Found 2 nodeB) ∧
    (MutPageTableWrapper.unmap_page_table memChainLeaf rootAddr 0 vA nodeB 2).map
        (fun res => res.2) = some (.ok ()) ∧
    (MutPageTableWrapper.unmap_page_table memChainLeaf rootAddr 0 vA nodeB 2).map
        (fun res => res.1 nodeA 0) = some PageTableEntryImpl.default ∧
    memChainLeaf nodeA 0 ≠ PageTableEntryImpl.default := by
  refine ⟨by decide, by decide, by decide, by decide⟩

/-- When the full-depth walk from the wrapper's position reports `Missing` at
the deepest level, `map_root_task_frame` writes the user leaf into the
deciding node's indexed slot and succeeds without consuming an allocation. -/
theorem map_root_task_frame_missing_deepest (mem : Mem) (fresh : List Nat)
    (root startLevel vaddr paddr : Nat) (x w r : Bool) (node i : Nat)
    (hva : is_aligned vaddr 4096 = true) (hpa : is_aligned paddr 4096 = true)
    (hsearch : MutPageTableWrapper.search_for_modify mem root startLevel vaddr
      HAL_PAGE_LEVEL = some (.Missing 2 node))
    (hidx : PageTableImpl.get_index vaddr 2 = some i) :
    MutPageTableWrapper.map_root_task_frame mem fresh root startLevel vaddr paddr
        x w r =
      some (mem.writeSlot node i
        ⟨true, true, usizeSub paddr KERNEL_OFFSET, x, w, r, true⟩, fresh, .ok ()) := by
  rw [MutPageTableWrapper.map_root_task_frame, if_neg (by simp [hva, hpa]), hsearch]
  simp only [if_pos rfl]
  unfold PageTableImpl.map_frame_for_user
  rw [hidx]
  rfl

/-- C7: for aligned `vaddr` and `paddr`, `map_root_task_frame` behaves as
claimed in each walk outcome — on `Found` it warns and succeeds without
mutating the tree or consuming allocations; on `Missing` at the deepest
level it writes the user leaf; on `Missing` at level 1 it installs one
freshly allocated directory as an intermediate and recurses into it until
the leaf is written there; and on `Missing` at level 0 it installs two
freshly allocated directories in a chain and writes the leaf in the deepest
one. -/
theorem c7_map_root_task_frame (mem : Mem) (fresh : List Nat)
    (root vaddr paddr : Nat) (x w r : Bool)
    (hva : is_aligned vaddr 4096 = true) (hpa : is_aligned paddr 4096 = true) :
    (∀ l n, MutPageTableWrapper.search_for_modify mem root 0 vaddr HAL_PAGE_LEVEL =
        some (.Found l n) →
      MutPageTableWrapper.map_root_task_frame mem fresh root 0 vaddr paddr x w r =
        some (mem, fresh, .ok ())) ∧
    (∀ n i2, MutPageTableWrapper.search_for_modify mem root 0 vaddr HAL_PAGE_LEVEL =
        some (.Missing 2 n) →
      PageTableImpl.get_index vaddr 2 = some i2 →
      MutPageTableWrapper.map_root_task_frame mem fresh root 0 vaddr paddr x w r =
        some (mem.writeSlot n i2
          ⟨true, true, usizeSub paddr KERNEL_OFFSET, x, w, r, true⟩, fresh, .ok ())) ∧
    (∀ n a rest i1 i2,
      MutPageTableWrapper.search_for_modify mem root 0 vaddr HAL_PAGE_LEVEL =
        some (.Missing 1 n) →
      fresh = a :: rest →
      PageTableImpl.get_index vaddr 1 = some i1 →
      PageTableImpl.get_index vaddr 2 = some i2 →
      a ≠ n →
      MutPageTableWrapper.map_root_task_frame mem fresh root 0 vaddr paddr x w r =
        some ((((mem.write a PageTableImpl.new).writeSlot n i1
            ⟨true, false, usizeSub a KERNEL_OFFSET, false, false, false, false⟩).writeSlot
            a i2 ⟨true, true, usizeSub paddr KERNEL_OFFSET, x, w, r, true⟩),
          rest, .ok ())) ∧
    (∀ n a b rest i0 i1 i2,
      MutPageTableWrapper.search_for_modify mem root 0 vaddr HAL_PAGE_LEVEL =
        some (.Missing 0 n) →
      fresh = a :: b :: rest →
      PageTableImpl.get_index vaddr 0 = some i0 →
      PageTableImpl.get_index vaddr 1 = some i1 →
      PageTableImpl.get_index vaddr 2 = some i2 →
      a ≠ n → b ≠ n → b ≠ a →
      MutPageTableWrapper.map_root_task_frame mem fresh root 0 vaddr paddr x w r =
        some (((((((mem.write a PageTableImpl.new).writeSlot n i0
            ⟨true, false, usizeSub a KERNEL_OFFSET, false, false, false, false⟩).write
            b PageTableImpl.new).writeSlot a i1
            ⟨true, false, usizeSub b KERNEL_OFFSET, false, false, false, false⟩).writeSlot
            b i2 ⟨true, true, usizeSub paddr KERNEL_OFFSET, x, w, r, true⟩)),
          rest, .ok ())) := by
  refine ⟨?_, ?_, ?_, ?_⟩
  · intro l n hsearch
    rw [MutPageTableWrapper.map_root_task_frame, if_neg (by simp [hva, hpa]), hsearch]
  · intro n i2 hsearch hidx
    exact map_root_task_frame_missing_deepest mem fresh root 0 vaddr paddr x w r
      n i2 hva hpa hsearch hidx
  · intro n a rest i1 i2 hsearch hfresh hi1 hi2 han
    subst hfresh
    rw [MutPageTableWrapper.map_root_task_frame, if_neg (by simp [hva, hpa]), hsearch]
    simp only [if_neg (show ¬ (1 = HAL_PAGE_LEVEL - 1) by decide),
      List.headD_cons, List.tail_cons]
    unfold PageTableImpl.map_page_table
    rw [hi1]
    simp only [Option.map_some']
    have hma : ((mem.write a PageTableImpl.new).write n
        (((mem.write a PageTableImpl.new) n).set i1
          ⟨true, false, usizeSub a KERNEL_OFFSET, false, false, false, false⟩)) a =
        PageTableImpl.new := by
      simp [Mem.write, han]
    have hsearch2 : MutPageTableWrapper.search_for_modify
        ((mem.write a PageTableImpl.new).write n
          (((mem.write a PageTableImpl.new) n).set i1
            ⟨true, false, usizeSub a KERNEL_OFFSET, false, false, false, false⟩))
        a 2 vaddr HAL_PAGE_LEVEL = some (.Missing 2 a) := by
      rw [MutPageTableWrapper.search_for_modify_step _ a 2 vaddr HAL_PAGE_LEVEL i2
        (by decide) hi2, if_pos]
      rw [hma]
      simp [PageTableImpl.new, PageTableEntryImpl.default]
    exact map_root_task_frame_missing_deepest _ rest a 2 vaddr paddr x w r
      a i2 hva hpa hsearch2 hi2
  · intro n a b rest i0 i1 i2 hsearch hfresh hi0 hi1 hi2 han hbn hba
    subst hfresh
    rw [MutPageTableWrapper.map_root_task_frame, if_neg (by simp [hva, hpa]), hsearch]
    simp only [if_neg (show ¬ (0 = HAL_PAGE_LEVEL - 1) by decide),
      List.headD_cons, List.tail_cons]
    unfold PageTableImpl.map_page_table
    rw [hi0]
    simp only [Option.map_some']
    have hma1 : ((mem.write a PageTableImpl.new).write n
        (((mem.write a PageTableImpl.new) n).set i0
          ⟨true, false, usizeSub a KERNEL_OFFSET, false, false, false, false⟩)) a =
        PageTableImpl.new := by
      simp [Mem.write, han]
    have hsearch1 : MutPageTableWrapper.search_for_modify
        ((mem.write a PageTableImpl.new).write n
          (((mem.write a PageTableImpl.new) n).set i0
            ⟨true, false, usizeSub a KERNEL_OFFSET, false, false, false, false⟩))
        a 1 vaddr HAL_PAGE_LEVEL = some (.Missing 1 a) := by
      rw [MutPageTableWrapper.search_for_modify_step _ a 1 vaddr HAL_PAGE_LEVEL i1
        (by decide) hi1, if_pos]
      rw [hma1]
      simp [PageTableImpl.new, PageTableEntryImpl.default]
    rw [MutPageTableWrapper.map_root_task_frame, if_neg (by simp [hva, hpa]),
      hsearch1]
    simp only [if_neg (show ¬ (1 = HAL_PAGE_LEVEL - 1) by decide),
      List.headD_cons, List.tail_cons]
    unfold PageTableImpl.map_page_table
    rw [hi1]
    simp only [Option.map_some']
    set mem2 : Mem := (mem.write a PageTableImpl.new).write n
      (((mem.write a PageTableImpl.new) n).set i0
        ⟨true, false, usizeSub a KERNEL_OFFSET, false, false, false, false⟩) with hmem2
    have hmb : ((mem2.write b PageTableImpl.new).write a
        (((mem2.write b PageTableImpl.new) a).set i1
          ⟨true, false, usizeSub b KERNEL_OFFSET, false, false, false, false⟩)) b =
        PageTableImpl.new := by
      simp [Mem.write, hbn, hba]
    have hsearch2 : MutPageTableWrapper.search_for_modify
        ((mem2.write b PageTableImpl.new).write a
          (((mem2.write b PageTableImpl.new) a).set i1
            ⟨true, false, usizeSub b KERNEL_OFFSET, false, false, false, false⟩))
        b 2 vaddr HAL_PAGE_LEVEL = some (.Missing 2 b) := by
      rw [MutPageTableWrapper.search_for_modify_step _ b 2 vaddr HAL_PAGE_LEVEL i2
        (by decide) hi2, if_pos]
      rw [hmb]
      simp [PageTableImpl.new, PageTableEntryImpl.default]
    exact map_root_task_frame_missing_deepest _ rest b 2 vaddr paddr x w r
      b i2 hva hpa hsearch2 hi2

/-- Closed instance of `c7_map_root_task_frame` on a fresh root (the spec's
scenario 6 shape): the call auto-populates two intermediate levels from
the allocation oracle and writes the leaf. -/
theorem c7_map_root_task_frame_witness :
    MutPageTableWrapper.map_root_task_frame memEmpty
        [nodeA, nodeB] rootAddr 0 0x300000000000 (KERNEL_OFFSET + 65536)
        true true true =
      some ((((((memEmpty.write nodeA
          PageTableImpl.new).writeSlot rootAddr 0
          ⟨true, false, usizeSub nodeA KERNEL_OFFSET, false, false, false, false⟩).write
          nodeB PageTableImpl.new).writeSlot nodeA 0
          ⟨true, false, usizeSub nodeB KERNEL_OFFSET, false, false, false, false⟩).writeSlot
          nodeB 0
          ⟨true, true, usizeSub (KERNEL_OFFSET + 65536) KERNEL_OFFSET,
            true, true, true, true⟩),
        [], .ok ()) :=
  (c7_map_root_task_frame memEmpty [nodeA, nodeB] rootAddr
    0x300000000000 (KERNEL_OFFSET + 65536) true true true (by decide)
    (by decide)).2.2.2 rootAddr nodeA nodeB [] 0 0 0 (by decide) rfl (by decide)
    (by decide) (by decide) (by decide) (by decide) (by decide)

/-- C6: on a tree whose intermediate chain for `vaddr` is installed (a valid
intermediate at the root's index for level 0 pointing to `n1`, one at `n1`'s
index for level 1 pointing to `n2`) while `vaddr` itself is unmapped (the
deepest slot holds the invalid all-zero sentinel, as every slot emptied by
this module's operations does), and whose deepest slot is not aliased by the
two chain slots, `map_frame` followed by `unmap_frame` returns the memory to
exactly its pre-state (bitwise identity of every node). -/
theorem c6_roundtrip (mem : Mem) (root vaddr paddr : Nat) (x w r : Bool)
    (i0 i1 i2 n1 n2 : Nat)
    (hva : is_aligned vaddr 4096 = true) (hpa : is_aligned paddr 4096 = true)
    (hi0 : PageTableImpl.get_index vaddr 0 = some i0)
    (hi1 : PageTableImpl.get_index vaddr 1 = some i1)
    (hi2 : PageTableImpl.get_index vaddr 2 = some i2)
    (h0v : (mem root i0).valid = true) (h0l : (mem root i0).leaf = false)
    (hn1 : (mem root i0).get_ptr = n1)
    (h1v : (mem n1 i1).valid = true) (h1l : (mem n1 i1).leaf = false)
    (hn2 : (mem n1 i1).get_ptr = n2)
    (h2 : mem n2 i2 = PageTableEntryImpl.default)
    (sep0 : ¬ (root = n2 ∧ i0 = i2)) (sep1 : ¬ (n1 = n2 ∧ i1 = i2)) :
    ∃ mem1,
      MutPageTableWrapper.map_frame mem root 0 vaddr paddr x w r =
        some (mem1, .ok ()) ∧
      MutPageTableWrapper.unmap_frame mem1 root 0 vaddr = some (mem, .ok ()) := by
  have hsearch : MutPageTableWrapper.search_for_modify mem root 0 vaddr
      HAL_PAGE_LEVEL = some (.Missing 2 n2) := by
    rw [MutPageTableWrapper.search_for_modify_step mem root 0 vaddr
        HAL_PAGE_LEVEL i0 (by decide) hi0,
      if_neg (by simp [h0v]), if_neg (by simp [h0l]), hn1,
      MutPageTableWrapper.search_for_modify_step mem n1 1 vaddr
        HAL_PAGE_LEVEL i1 (by decide) hi1,
      if_neg (by simp [h1v]), if_neg (by simp [h1l]), hn2,
      MutPageTableWrapper.search_for_modify_step mem n2 2 vaddr
        HAL_PAGE_LEVEL i2 (by decide) hi2,
      if_pos (by simp [h2, PageTableEntryImpl.default])]
  have hmap := map_frame_writes_user_leaf mem root vaddr paddr x w r n2 i2
    hva hpa hsearch hi2
  set L : PageTableEntryImpl :=
    ⟨true, true, usizeSub paddr KERNEL_OFFSET, x, w, r, true⟩ with hL
  set mem1 : Mem := mem.writeSlot n2 i2 L with hmem1
  refine ⟨mem1, hmap, ?_⟩
  have e0 : mem1 root i0 = mem root i0 := Mem.writeSlot_get_ne mem n2 i2 L root i0 sep0
  have e1 : mem1 n1 i1 = mem n1 i1 := Mem.writeSlot_get_ne mem n2 i2 L n1 i1 sep1
  have e2 : mem1 n2 i2 = L := Mem.writeSlot_get_self mem n2 i2 L
  have hsearch1 : MutPageTableWrapper.search_for_modify mem1 root 0 vaddr
      HAL_PAGE_LEVEL = some (.Found 2 n2) := by
    rw [MutPageTableWrapper.search_for_modify_step mem1 root 0 vaddr
        HAL_PAGE_LEVEL i0 (by decide) hi0, e0,
      if_neg (by simp [h0v]), if_neg (by simp [h0l]), hn1,
      MutPageTableWrapper.search_for_modify_step mem1 n1 1 vaddr
        HAL_PAGE_LEVEL i1 (by decide) hi1, e1,
      if_neg (by simp [h1v]), if_neg (by simp [h1l]), hn2,
      MutPageTableWrapper.search_for_modify_step mem1 n2 2 vaddr
        HAL_PAGE_LEVEL i2 (by decide) hi2, e2,
      if_neg (by simp [hL]), if_pos (by simp [hL])]
  have hback : mem1.write n2 ((mem1 n2).set i2 PageTableEntryImpl.default) = mem := by
    have hm1n2 : mem1 n2 = (mem n2).set i2 L := by
      simp [hmem1, Mem.writeSlot, Mem.write]
    rw [hm1n2, PageTableImpl.set_set]
    have hrestore : (mem n2).set i2 PageTableEntryImpl.default = mem n2 := by
      conv_lhs => rw [← h2]
      exact PageTableImpl.set_self (mem n2) i2
    rw [hrestore, hmem1]
    show (mem.write n2 ((mem n2).set i2 L)).write n2 (mem n2) = mem
    rw [Mem.write_write, Mem.write_self]
  unfold MutPageTableWrapper.unmap_frame PageTableImpl.unmap_frame
  rw [if_neg (by simp [hva])]
  simp only [hsearch1, hi2, Option.map_some']
  rw [hback]

/-- Closed instance of `c6_roundtrip` on the scenario-2 chain without a
leaf: mapping a frame at `vA` and unmapping it returns the exact pre-state. -/
theorem c6_roundtrip_witness :
    ∃ mem1,
      MutPageTableWrapper.map_frame memChainNoLeaf rootAddr 0 vA
        (KERNEL_OFFSET + 65536) false true true = some (mem1, .ok ()) ∧
      MutPageTableWrapper.unmap_frame mem1 rootAddr 0 vA =
        some (memChainNoLeaf, .ok ()) :=
  c6_roundtrip memChainNoLeaf rootAddr vA (KERNEL_OFFSET + 65536) false true true
    0 0 0 nodeA nodeB (by decide) (by decide) (by decide) (by decide) (by decide)
    (by decide) (by decide) (by decide) (by decide) (by decide) (by decide)
    (by decide) (by decide) (by decide)

/-- Closed instance of `c10_paddr_kernel_offset_underflow`: the raw physical
address `0x10000` (below `KERNEL_OFFSET`) wraps, and a `map_frame` at the
deepest level stores exactly the wrapped difference. -/
theorem c10_paddr_kernel_offset_underflow_witness :
    usizeSub 65536 KERNEL_OFFSET = 65536 + 2 ^ 38 ∧
    usizeSub (KERNEL_OFFSET + 65536) KERNEL_OFFSET = 65536 ∧
    MutPageTableWrapper.map_frame memChainNoLeaf rootAddr 0 vA 65536
        false true true =
      some (memChainNoLeaf.writeSlot nodeB 0
        ⟨true, true, usizeSub 65536 KERNEL_OFFSET, false, true, true, true⟩,
        .ok ()) := by
  refine ⟨?_, ?_, ?_⟩
  · exact c10_paddr_kernel_offset_underflow.2.1 65536 (by decide)
  · have h := c10_paddr_kernel_offset_underflow.1 (KERNEL_OFFSET + 65536)
      (by decide) (by decide)
    rw [h]
    decide
  · exact ((c10_paddr_kernel_offset_underflow.2.2.2.1 memChainNoLeaf rootAddr vA
      65536 false true true nodeB 0 (by decide) (by decide) (by decide)
      (by decide)).1)
